import Mathlib

/-!
# Verification of the discord-rs stock-scan engine

Shallow embedding of the scan pipeline of `yokeTH/discord-rs`:
the CDC signal evaluator and chart validation (`libs/stock/src/indicators/cdc.rs`),
the symbol store's pending-delete sessions (`libs/stock/src/symbol_store.rs`),
the scheduled scan loop (`apps/bot/src/daily.rs`), the interactive trigger loop
(`apps/bot/src/command/stock/trigger.rs`) and the delete command
(`apps/bot/src/command/stock/delete.rs`).

Prices are embedded as rationals: the source computes with `f64`, and every
property proved here concerns the order/branch structure of the computation,
which is identical over any linear ordered field; the EMA recurrence itself is
rational arithmetic.
-/

namespace DiscordRs

/-! ## Signal evaluator (`cdc.rs`, `calculate`)

The source uses `ta::indicators::ExponentialMovingAverage`, whose state is
`{ period, k = 2/(period+1), current, is_new }` and whose `next(x)` returns `x`
on the first call and `k*x + (1-k)*current` afterwards. -/

/-- EMA state of the `ta` crate's `ExponentialMovingAverage`. -/
structure Ema where
  k : ℚ
  current : ℚ
  isNew : Bool
deriving Repr

/-- `ExponentialMovingAverage::new(period)` (period > 0 in all call sites). -/
def Ema.new (period : ℕ) : Ema :=
  { k := 2 / ((period : ℚ) + 1), current := 0, isNew := true }

/-- `Next::next(&mut self, x)` of the `ta` EMA: returns new state and the output. -/
def Ema.next (e : Ema) (x : ℚ) : Ema × ℚ :=
  let cur := if e.isNew then x else e.k * x + (1 - e.k) * e.current
  ({ k := e.k, current := cur, isNew := false }, cur)

/-- The per-point EMA series: the loop
`for &x in closes { ema_vals.push(ema.next(x)); }`. -/
def emaSeries (e : Ema) : List ℚ → List ℚ
  | [] => []
  | x :: xs =>
    let (e', v) := e.next x
    v :: emaSeries e' xs

/-- `Signal` from `cdc.rs` (variants named as in the source). -/
inductive Signal where
  | Buy
  | Sell
  | BullishZone
  | BearishZone
  | None
deriving Repr, DecidableEq

/-- `calculate(closes)` from `cdc.rs`: computes the EMA(12) and EMA(26) series,
returns `Signal::None` for fewer than two points, otherwise classifies the
last two points of the derived series. -/
def calculate (closes : List ℚ) : Signal × List ℚ × List ℚ :=
  let ema12_vals := emaSeries (Ema.new 12) closes
  let ema26_vals := emaSeries (Ema.new 26) closes
  if closes.length < 2 then
    (Signal.None, ema12_vals, ema26_vals)
  else
    let c := closes.length - 1
    let p := closes.length - 2
    let prev_fast := ema12_vals.getD p 0
    let prev_slow := ema26_vals.getD p 0
    let cur_fast := ema12_vals.getD c 0
    let cur_slow := ema26_vals.getD c 0
    let signal :=
      if prev_fast ≤ prev_slow ∧ cur_fast > cur_slow then Signal.Buy
      else if prev_fast ≥ prev_slow ∧ cur_fast < cur_slow then Signal.Sell
      else if cur_fast > cur_slow then Signal.BullishZone
      else Signal.BearishZone
    (signal, ema12_vals, ema26_vals)

/-- `ema12_vals[closes.len()-2]` — the prior fast-EMA value. -/
def prevFast (closes : List ℚ) : ℚ := (calculate closes).2.1.getD (closes.length - 2) 0

/-- `ema26_vals[closes.len()-2]` — the prior slow-EMA value. -/
def prevSlow (closes : List ℚ) : ℚ := (calculate closes).2.2.getD (closes.length - 2) 0

/-- `ema12_vals[closes.len()-1]` — the current fast-EMA value. -/
def curFast (closes : List ℚ) : ℚ := (calculate closes).2.1.getD (closes.length - 1) 0

/-- `ema26_vals[closes.len()-1]` — the current slow-EMA value. -/
def curSlow (closes : List ℚ) : ℚ := (calculate closes).2.2.getD (closes.length - 1) 0

/-! ## Chart generation (`cdc.rs`, `generate_chart`)

The deterministic part of `generate_chart` is embedded directly: validation,
the 90-point lookback slicing, and the green/red trend segmentation
(`f64::NAN` gaps embedded as `none`). The final `ImageRenderer::render_format`
call (the `charming` crate producing PNG bytes) is external and taken as a
parameter; its failure is the `RenderFailed` case. -/

/-- Error cases of the embedded `generate_chart`: the two `ensure!` failures,
the `bail!("no data to display after slicing")`, and a failure of the external
PNG renderer (`renderer.render_format(...)?`). -/
inductive ChartErr where
  | EmptyInput
  | LengthMismatch
  | NoData
  | RenderFailed (msg : String)
deriving Repr, DecidableEq

/-- The deterministic chart description handed to the external renderer. -/
structure ChartData where
  symbol : String
  priceGreen : List (Option ℚ)
  priceRed : List (Option ℚ)
  ema12 : List ℚ
  ema26 : List ℚ
  dates : List String
deriving Repr

/-- One iteration `i` of the segmentation loop `for i in 1..n` of
`generate_chart`: state is `(price_green, price_red, prev_bull)`. -/
def segStep (dp de12 de26 : List ℚ) (st : List (Option ℚ) × List (Option ℚ) × Bool)
    (i : ℕ) : List (Option ℚ) × List (Option ℚ) × Bool :=
  let (green, red, prev_bull) := st
  let bull : Bool := decide (de26.getD i 0 < de12.getD i 0)
  if bull then
    let green := green.set i (some (dp.getD i 0))
    let green :=
      if bull ≠ prev_bull then green.set (i - 1) (some (dp.getD (i - 1) 0)) else green
    (green, red, bull)
  else
    let red := red.set i (some (dp.getD i 0))
    let red :=
      if bull ≠ prev_bull then red.set (i - 1) (some (dp.getD (i - 1) 0)) else red
    (green, red, bull)

/-- `generate_chart(symbol, prices, ema12, ema26, dates)` from `cdc.rs`, with
the external PNG renderer abstracted as `render`. -/
def generate_chart (render : ChartData → Except String (List ℕ)) (symbol : String)
    (prices ema12 ema26 : List ℚ) (dates : List String) : Except ChartErr (List ℕ) :=
  if prices.isEmpty then .error .EmptyInput
  else if ¬(prices.length = ema12.length ∧ prices.length = ema26.length ∧
      prices.length = dates.length) then .error .LengthMismatch
  else
    let LOOKBACK : ℕ := 90
    let lookback := min LOOKBACK prices.length
    let start_idx := prices.length - lookback
    let display_prices := prices.drop start_idx
    let display_ema12 := ema12.drop start_idx
    let display_ema26 := ema26.drop start_idx
    let display_dates := dates.drop start_idx
    let n := display_prices.length
    if n = 0 then .error .NoData
    else
      let prev_bull : Bool := decide (display_ema26.getD 0 0 < display_ema12.getD 0 0)
      let green0 : List (Option ℚ) := List.replicate n none
      let red0 : List (Option ℚ) := List.replicate n none
      let init :=
        if prev_bull then (green0.set 0 (some (display_prices.getD 0 0)), red0, prev_bull)
        else (green0, red0.set 0 (some (display_prices.getD 0 0)), prev_bull)
      let (green, red, _) :=
        ((List.range n).drop 1).foldl (segStep display_prices display_ema12 display_ema26)
          init
      match render ⟨symbol, green, red, display_ema12, display_ema26, display_dates⟩ with
      | .ok bytes => .ok bytes
      | .error e => .error (.RenderFailed e)

/-- The errors raised by `generate_chart` itself (not by the external
renderer): the input-validation failures and the unreachable slicing guard. -/
def ChartErr.isValidation : ChartErr → Bool
  | .EmptyInput | .LengthMismatch | .NoData => true
  | .RenderFailed _ => false

/-! ## Scan engine (`daily.rs` `run_daily` and `trigger.rs` `trigger`)

The per-symbol task body is identical in both call sites and is embedded once
(`symbolTask`), with the external collaborators (the Alpaca HTTP price client,
the PNG renderer, and the `spawn_blocking` join) as oracles. The consuming
loops differ — `daily.rs` ignores a failed mid-scan `send_message` (`warn!`)
while `trigger.rs` propagates it with `?` — so each loop is embedded
separately. `buffer_unordered` yields task results in completion order; the
loops below consume that completion-order list. -/

/-- A fetched price bar: only the fields the scan uses (`close`, formatted
`timestamp`). -/
structure Bar where
  close : ℚ
  date : String
deriving Repr

/-- `struct Hit { embed, attachment }`: both are built from the symbol and the
generated chart bytes. -/
structure Hit where
  symbol : String
  bytes : List ℕ
deriving Repr, DecidableEq

/-- The external collaborators of one scan: `fetch_price` (`none` = the call
returned `Err`), the PNG renderer inside `generate_chart`, and the
`spawn_blocking` join outcome. -/
structure Collab where
  fetch : String → Option (List Bar)
  render : String → ChartData → Except String (List ℕ)
  joinOk : String → Bool

/-- A task's value as seen by the consuming loop:
`Ok(Some(hit))` / `Ok(None)` / `Err(e)`. -/
inductive TaskOut where
  | hit (h : Hit)
  | skip
  | taskErr
deriving Repr, DecidableEq

/-- The per-symbol task body shared verbatim by `run_daily` and `trigger`:
fetch, skip on fetch error or empty bars, evaluate, and for `Buy`/`Sell`
generate a chart (skipping on join or chart failure). Every failure path
returns `Ok(None)` (here `.skip`); no path returns `Err`. -/
def symbolTask (c : Collab) (symbol : String) : TaskOut :=
  match c.fetch symbol with
  | none => .skip
  | some bars =>
    if bars.isEmpty then .skip
    else
      let closes := bars.map Bar.close
      let dates := bars.map Bar.date
      match calculate closes with
      | (sig, ema12, ema26) =>
        match sig with
        | .Buy | .Sell =>
          if c.joinOk symbol then
            match generate_chart (c.render symbol) symbol closes ema12 ema26 dates with
            | .ok bytes => .hit ⟨symbol, bytes⟩
            | .error _ => .skip
          else .skip
        | .BullishZone | .BearishZone | .None => .skip

/-- `const CONCURRENCY: usize = 8` (same in both call sites). -/
def CONCURRENCY : ℕ := 8

/-- `const BATCH_SIZE: usize = 10` (same in both call sites). -/
def BATCH_SIZE : ℕ := 10

/-- A message submitted to the Discord surface: either a batch of hit
embeds/attachments or a plain text content message. -/
inductive Msg where
  | batch (hits : List Hit)
  | text (content : String)
deriving Repr, DecidableEq

/-- State of the consuming loop: the current embed/attachment accumulator
(the two vectors move in lockstep, so one list of `Hit`s), the messages
submitted so far, and the `processed`/`hits`/`failures` counters. -/
structure ScanState where
  embeds : List Hit
  msgs : List Msg
  processed : ℕ
  hits : ℕ
  failures : ℕ
deriving Repr, DecidableEq

/-- Loop state at the start of a scan. -/
def initState : ScanState := ⟨[], [], 0, 0, 0⟩

/-- One iteration of `run_daily`'s `while let Some(res) = tasks.next().await`:
a full accumulator is flushed with `channel.send_message`, whose failure is
only logged (`warn!`), so the delivery outcome does not influence the state. -/
def dailyStep (s : ScanState) (r : TaskOut) : ScanState :=
  let s := { s with processed := s.processed + 1 }
  match r with
  | .hit h =>
    let s := { s with hits := s.hits + 1, embeds := s.embeds ++ [h] }
    if s.embeds.length = BATCH_SIZE then
      { s with embeds := [], msgs := s.msgs ++ [.batch s.embeds] }
    else s
  | .skip => s
  | .taskErr => { s with failures := s.failures + 1 }

/-- `run_daily` after the loop: a non-empty remainder is sent as a final batch
(`send_message(...).await?`, so its delivery failure is the function's error);
with no remainder it only logs "no actionable signals found" — the
notification send is commented out in the source. Returns the final state and
whether the function returned `Ok`. -/
def dailyFinish (deliver : ℕ → Bool) (s : ScanState) : ScanState × Bool :=
  if s.embeds.isEmpty then (s, true)
  else
    ({ s with embeds := [], msgs := s.msgs ++ [.batch s.embeds] }, deliver s.msgs.length)

/-- The whole of `run_daily` downstream of `buffer_unordered`, over the
completion-order task results; `deliver k` is the surface's acknowledgment of
the `k`-th submitted message. -/
def run_daily_model (deliver : ℕ → Bool) (results : List TaskOut) : ScanState × Bool :=
  dailyFinish deliver (results.foldl dailyStep initState)

/-- The consuming loop of `trigger`: identical to `run_daily`'s except that a
mid-scan flush failure propagates with `?`, aborting the loop (returns
`false`; remaining results are never consumed). -/
def triggerLoop (deliver : ℕ → Bool) : ScanState → List TaskOut → ScanState × Bool
  | s, [] => (s, true)
  | s, r :: rest =>
    let s1 := { s with processed := s.processed + 1 }
    match r with
    | .hit h =>
      let s2 := { s1 with hits := s1.hits + 1, embeds := s1.embeds ++ [h] }
      if s2.embeds.length = BATCH_SIZE then
        let ok := deliver s2.msgs.length
        let s3 := { s2 with embeds := [], msgs := s2.msgs ++ [.batch s2.embeds] }
        if ok then triggerLoop deliver s3 rest else (s3, false)
      else triggerLoop deliver s2 rest
    | .skip => triggerLoop deliver s1 rest
    | .taskErr => triggerLoop deliver { s1 with failures := s1.failures + 1 } rest

/-- `trigger` after the loop: a non-empty remainder is sent as a final batch;
an empty one sends the text reply "No Buy/Sell signals found." — both with
`?`. -/
def triggerFinish (deliver : ℕ → Bool) (s : ScanState) : ScanState × Bool :=
  if s.embeds.isEmpty then
    ({ s with msgs := s.msgs ++ [.text "No Buy/Sell signals found."] }, deliver s.msgs.length)
  else
    ({ s with embeds := [], msgs := s.msgs ++ [.batch s.embeds] }, deliver s.msgs.length)

/-- The whole of `trigger` downstream of `buffer_unordered`. -/
def trigger_model (deliver : ℕ → Bool) (results : List TaskOut) : ScanState × Bool :=
  match triggerLoop deliver initState results with
  | (s, true) => triggerFinish deliver s
  | (s, false) => (s, false)

/-- The batch messages among the submitted messages, in order. -/
def batchMsgs (msgs : List Msg) : List (List Hit) :=
  msgs.filterMap fun m => match m with | .batch b => some b | .text _ => none

/-- Number of `Ok(Some(hit))` results in a completion-order result list. -/
def hitCount (results : List TaskOut) : ℕ :=
  results.countP fun r => match r with | .hit _ => true | _ => false

/-- Number of `Err` results in a completion-order result list. -/
def errCount (results : List TaskOut) : ℕ :=
  results.countP fun r => match r with | .taskErr => true | _ => false

/-- Collaborators for which every fetch returns the two-bar series with closes
`[1, 2]` (an upward EMA cross, hence `Buy`), the PNG renderer returns bytes
`[7]`, and `spawn_blocking` joins succeed. -/
def collabBuy : Collab :=
  { fetch := fun _ => some [⟨1, "2024-01-01"⟩, ⟨2, "2024-01-02"⟩]
    render := fun _ _ => .ok [7]
    joinOk := fun _ => true }

/-- Collaborators for which every fetch returns a single bar (series shorter
than 2 points, hence `Signal::None` and no hit). -/
def collabNoSignal : Collab :=
  { fetch := fun _ => some [⟨1, "2024-01-01"⟩]
    render := fun _ _ => .ok [7]
    joinOk := fun _ => true }

/-- Collaborators of a 5-symbol scan in which exactly the fetch of `"S3"`
fails and every other symbol produces a `Buy` hit. -/
def collab5 : Collab :=
  { fetch := fun s =>
      if s = "S3" then none else some [⟨1, "2024-01-01"⟩, ⟨2, "2024-01-02"⟩]
    render := fun _ _ => .ok [7]
    joinOk := fun _ => true }

/-- The five symbols of the spec's failing-fetch scenario. -/
def fiveSymbols : List String := ["S1", "S2", "S3", "S4", "S5"]

/-- Eleven symbols: enough hits to trigger one mid-scan flush with a remainder. -/
def elevenSymbols : List String :=
  ["A1", "A2", "A3", "A4", "A5", "A6", "A7", "A8", "A9", "A10", "A11"]

/-! ## Pending-delete sessions (`symbol_store.rs`, `delete.rs`)

The Redis client is external; the pending-delete keys are embedded as a map
from request id to set members plus absolute expiry, with Redis's documented
`DEL`/`SADD`/`EXPIRE`/`SMEMBERS` behaviour (an expired or missing key reads
as the empty set; a key lives while `now < expiry`). -/

/-- `SymbolStore::normalize`: trim whitespace at both ends, then uppercase
(embedded on the character list). -/
def normalize (s : String) : String :=
  String.mk (((s.data.dropWhile Char.isWhitespace).reverse.dropWhile
    Char.isWhitespace).reverse.map Char.toUpper)

/-- The `{prefix}:pending_del:{id}` keys: request id ↦ (members, expiry). -/
structure PendingStore where
  entries : String → Option (List String × ℕ)

/-- `set_pending_delete(id, symbols)` executed at time `now`: `DEL` the key,
`SADD` the normalized symbols unless the list is empty (then only a warning),
and `EXPIRE key 300`. -/
def set_pending_delete (st : PendingStore) (id : String) (symbols : List String)
    (now : ℕ) : PendingStore :=
  let normalized := symbols.map normalize
  if normalized.isEmpty then
    ⟨fun k => if k = id then none else st.entries k⟩
  else
    ⟨fun k => if k = id then some (normalized.dedup, now + 300) else st.entries k⟩

/-- `get_pending_delete(id)` at time `now`: `SMEMBERS` then `None` on an empty
result. -/
def get_pending_delete (st : PendingStore) (id : String) (now : ℕ) :
    Option (List String) :=
  match st.entries id with
  | some (members, expiry) =>
    if now < expiry ∧ members ≠ [] then some members else none
  | none => none

/-- Outcome of the `confirm_del_{req_id}` branch of `handle_component`. -/
inductive ConfirmOutcome where
  | notOwner
  | expired
  | deleted (symbols : List String)
deriving Repr, DecidableEq

/-- `req_id.split('-').next().unwrap_or_default()`: the prefix of `req_id`
before its first `'-'` (Rust's `split` always yields at least this prefix). -/
def ownerOf (reqId : String) : String :=
  String.mk (reqId.data.takeWhile (fun c => !(c = '-')))

/-- The `confirm_del_{req_id}` branch of `handle_component` at time `now`:
`req_id.split('-').next()` must match the acting user id, then
`get_pending_delete`; on success every stored symbol is `remove`d from the
watchlist. No path deletes the pending entry itself, so the returned pending
store is the input one. -/
def confirmDelete (st : PendingStore) (watch : List String) (userId : ℕ)
    (reqId : String) (now : ℕ) : ConfirmOutcome × PendingStore × List String :=
  let owner := ownerOf reqId
  if owner ≠ toString userId then (.notOwner, st, watch)
  else
    match get_pending_delete st reqId now with
    | none => (.expired, st, watch)
    | some symbols =>
      (.deleted symbols, st, watch.filter (fun w => w ∉ symbols.map normalize))

/-! ## The `/delete` command menu (`delete.rs`) -/

/-- The `/delete` slash-command body: `bail!("Watchlist is empty.")` on an
empty watchlist, otherwise a string-select menu whose option values are the
first `min(n, 25)` listed symbols (`take(limit)` with
`limit = symbols.len().min(25)`). -/
def deleteMenu (symbols : List String) : Option (List String) :=
  if symbols.isEmpty then none
  else some (symbols.take (min symbols.length 25))

/-! ## The `buffer_unordered` worker pool -/

/-- Scheduler state of `stream::iter(symbols).map(task).buffer_unordered(C)`:
the waiting rest of the symbol stream, the in-flight tasks, and the
results already yielded, in completion order. -/
structure PoolState where
  pending : List String
  running : List String
  done : List TaskOut
deriving Repr, DecidableEq

/-- One scheduler step of `buffer_unordered(C)`, per the adapter's contract:
while fewer than `C` futures are in flight, the next future is taken from the
head of the shared stream (`spawn`); any in-flight task may finish
(`complete`), appending its result in completion order. -/
inductive PoolStep (C : ℕ) (task : String → TaskOut) : PoolState → PoolState → Prop
  | spawn (x : String) (pending running : List String) (done : List TaskOut)
      (hcap : running.length < C) :
      PoolStep C task ⟨x :: pending, running, done⟩ ⟨pending, x :: running, done⟩
  | complete (x : String) (pending running : List String) (done : List TaskOut)
      (hx : x ∈ running) :
      PoolStep C task ⟨pending, running, done⟩
        ⟨pending, running.erase x, done ++ [task x]⟩

/-- Pool states reachable during a scan over `symbols` (initially all symbols
pending, nothing in flight). -/
def PoolReachable (C : ℕ) (task : String → TaskOut) (symbols : List String)
    (s : PoolState) : Prop :=
  Relation.ReflTransGen (PoolStep C task) ⟨symbols, [], []⟩ s

/-! ## Proofs -/

lemma emaSeries_length (e : Ema) (xs : List ℚ) :
    (emaSeries e xs).length = xs.length := by
  induction xs generalizing e with
  | nil => rfl
  | cons x xs ih => simp [emaSeries, ih]

lemma calculate_fast_length (closes : List ℚ) :
    (calculate closes).2.1.length = closes.length := by
  unfold calculate
  by_cases h : closes.length < 2 <;> simp [h, emaSeries_length]

lemma calculate_slow_length (closes : List ℚ) :
    (calculate closes).2.2.length = closes.length := by
  unfold calculate
  by_cases h : closes.length < 2 <;> simp [h, emaSeries_length]

/-- C3: the evaluator returns one fast-EMA(12) and one slow-EMA(26) value per
input point; the signal is `None` (spec: Undetermined) iff the series has fewer
than 2 points; otherwise it classifies the last two points of the derived
series: Buy on an upward cross, Sell on a downward cross, BullishZone
(spec: BullishBias) when the current fast exceeds the current slow with no
cross, BearishZone (spec: BearishBias) otherwise. -/
theorem C3_evaluator_contract (closes : List ℚ) :
    (calculate closes).2.1.length = closes.length ∧
    (calculate closes).2.2.length = closes.length ∧
    ((calculate closes).1 = Signal.None ↔ closes.length < 2) ∧
    (2 ≤ closes.length →
      (calculate closes).1 =
        if prevFast closes ≤ prevSlow closes ∧ curSlow closes < curFast closes then
          Signal.Buy
        else if prevSlow closes ≤ prevFast closes ∧ curFast closes < curSlow closes then
          Signal.Sell
        else if curSlow closes < curFast closes then Signal.BullishZone
        else Signal.BearishZone) := by
  refine ⟨calculate_fast_length closes, calculate_slow_length closes, ?_, ?_⟩
  · unfold calculate
    by_cases h : closes.length < 2
    · simp [h]
    · simp only [h, if_false]
      constructor
      · intro hc
        exfalso
        revert hc
        split_ifs <;> simp
      · intro hc; exact hc.elim
  · intro h
    have h2 : ¬ closes.length < 2 := by omega
    unfold prevFast prevSlow curFast curSlow calculate
    simp only [h2, if_false, gt_iff_lt, ge_iff_le]

/-- C3 witness: the contract applied to the two-point series `[1, 2]`. -/
theorem C3_evaluator_contract_witness :
    2 ≤ ([1, 2] : List ℚ).length ∧
    (calculate [1, 2]).1 =
      (if prevFast [1, 2] ≤ prevSlow [1, 2] ∧ curSlow [1, 2] < curFast [1, 2] then
        Signal.Buy
      else if prevSlow [1, 2] ≤ prevFast [1, 2] ∧ curFast [1, 2] < curSlow [1, 2] then
        Signal.Sell
      else if curSlow [1, 2] < curFast [1, 2] then Signal.BullishZone
      else Signal.BearishZone) :=
  ⟨by decide, (C3_evaluator_contract [1, 2]).2.2.2 (by decide)⟩

/-- C7: `generate_chart` rejects an empty price series with `EmptyInput`,
rejects four series of unequal lengths (price series non-empty) with
`LengthMismatch` — producing no bytes in either case — and for equal-length
non-empty inputs raises neither validation error (any remaining failure can
only come from the external PNG renderer). -/
theorem C7_generate_chart_validation (render : ChartData → Except String (List ℕ))
    (symbol : String) (prices ema12 ema26 : List ℚ) (dates : List String) :
    (prices.isEmpty = true →
      generate_chart render symbol prices ema12 ema26 dates = .error .EmptyInput) ∧
    (prices.isEmpty = false →
      ¬(prices.length = ema12.length ∧ prices.length = ema26.length ∧
        prices.length = dates.length) →
      generate_chart render symbol prices ema12 ema26 dates = .error .LengthMismatch) ∧
    (prices.isEmpty = false →
      (prices.length = ema12.length ∧ prices.length = ema26.length ∧
        prices.length = dates.length) →
      ∀ e, generate_chart render symbol prices ema12 ema26 dates = .error e →
        e.isValidation = false) := by
  refine ⟨?_, ?_, ?_⟩
  · intro h
    simp [generate_chart, h]
  · intro h hm
    simp [generate_chart, h, hm]
  · intro h hl e
    obtain ⟨h1, h2, h3⟩ := hl
    have hlen : prices.length ≠ 0 := by
      cases prices with
      | nil => simp at h
      | cons a l => simp
    simp only [generate_chart]
    split_ifs with hif1 hif2 hif3 hbull
    · exact absurd hif1 (by simp [h])
    · exfalso
      rw [List.length_drop] at hif3
      omega
    · intro hmatch
      split at hmatch
      · exact absurd hmatch (by simp)
      · cases hmatch
        rfl
    · intro hmatch
      split at hmatch
      · exact absurd hmatch (by simp)
      · cases hmatch
        rfl
    · exact absurd ⟨h1, h2, h3⟩ hif2

/-- C7 witness: a 5-point price series with 4 labels is rejected with
`LengthMismatch`; the same series with 5 labels passes validation. -/
theorem C7_generate_chart_validation_witness :
    generate_chart (fun _ => .ok [1]) "AAPL" [1, 2, 3, 4, 5] [1, 2, 3, 4, 5]
      [1, 2, 3, 4, 5] ["a", "b", "c", "d"] = .error .LengthMismatch ∧
    (∀ e, generate_chart (fun _ => .ok [1]) "AAPL" [1, 2, 3, 4, 5] [1, 2, 3, 4, 5]
      [1, 2, 3, 4, 5] ["a", "b", "c", "d", "e"] = .error e → e.isValidation = false) :=
  ⟨(C7_generate_chart_validation (fun _ => .ok [1]) "AAPL" [1, 2, 3, 4, 5] [1, 2, 3, 4, 5]
      [1, 2, 3, 4, 5] ["a", "b", "c", "d"]).2.1 (by decide) (by decide),
   (C7_generate_chart_validation (fun _ => .ok [1]) "AAPL" [1, 2, 3, 4, 5] [1, 2, 3, 4, 5]
      [1, 2, 3, 4, 5] ["a", "b", "c", "d", "e"]).2.2 (by decide) (by decide)⟩

lemma hitCount_cons (r : TaskOut) (rs : List TaskOut) :
    hitCount (r :: rs) =
      hitCount rs + (match r with | .hit _ => 1 | _ => 0) := by
  cases r <;> simp [hitCount, List.countP_cons]

lemma errCount_cons (r : TaskOut) (rs : List TaskOut) :
    errCount (r :: rs) =
      errCount rs + (match r with | .taskErr => 1 | _ => 0) := by
  cases r <;> simp [errCount, List.countP_cons]

/-- Invariant of `run_daily`'s consuming loop: starting from an accumulator
below the cap, every flushed batch has exactly `BATCH_SIZE` hits, the number
of flushed batches and the leftover accumulator follow Euclidean division of
the hit count by `BATCH_SIZE`, and the counters track the consumed results. -/
lemma daily_fold_inv (results : List TaskOut) (s : ScanState)
    (hs : s.embeds.length < 10) :
    (results.foldl dailyStep s).embeds.length < 10 ∧
    (results.foldl dailyStep s).embeds.length =
      (s.embeds.length + hitCount results) % 10 ∧
    (results.foldl dailyStep s).processed = s.processed + results.length ∧
    (results.foldl dailyStep s).hits = s.hits + hitCount results ∧
    (results.foldl dailyStep s).failures = s.failures + errCount results ∧
    ∃ new, (results.foldl dailyStep s).msgs = s.msgs ++ new ∧
      new.length = (s.embeds.length + hitCount results) / 10 ∧
      ∀ m ∈ new, ∃ b, m = Msg.batch b ∧ b.length = 10 := by
  induction results generalizing s with
  | nil =>
    simp only [List.foldl_nil, hitCount, errCount, List.countP_nil, List.length_nil]
    exact ⟨hs, by omega, by omega, by omega, by omega, [], by simp, by simp; omega, by simp⟩
  | cons r rest ih =>
    cases r with
    | skip =>
      have h2 : ({ s with processed := s.processed + 1 } : ScanState).embeds.length < 10 := hs
      obtain ⟨a1, a2, a3, a4, a5, new, b1, b2, b3⟩ :=
        ih { s with processed := s.processed + 1 } h2
      refine ⟨a1, ?_, ?_, ?_, ?_, new, ?_, ?_, b3⟩ <;>
        simp_all [dailyStep, hitCount_cons, errCount_cons] <;> omega
    | taskErr =>
      have h2 : ({ s with processed := s.processed + 1, failures := s.failures + 1 } :
          ScanState).embeds.length < 10 := hs
      obtain ⟨a1, a2, a3, a4, a5, new, b1, b2, b3⟩ :=
        ih { s with processed := s.processed + 1, failures := s.failures + 1 } h2
      refine ⟨a1, ?_, ?_, ?_, ?_, new, ?_, ?_, b3⟩ <;>
        simp_all [dailyStep, hitCount_cons, errCount_cons] <;> omega
    | hit h =>
      by_cases hflush : s.embeds.length + 1 = 10
      · have hstep : dailyStep s (.hit h) =
            { s with
              processed := s.processed + 1
              hits := s.hits + 1
              embeds := []
              msgs := s.msgs ++ [.batch (s.embeds ++ [h])] } := by
          simp [dailyStep, BATCH_SIZE, hflush]
        obtain ⟨a1, a2, a3, a4, a5, new, b1, b2, b3⟩ :=
          ih { s with
            processed := s.processed + 1
            hits := s.hits + 1
            embeds := []
            msgs := s.msgs ++ [.batch (s.embeds ++ [h])] } (by simp)
        refine ⟨?_, ?_, ?_, ?_, ?_, Msg.batch (s.embeds ++ [h]) :: new, ?_, ?_, ?_⟩
        · simpa [hstep] using a1
        · simp only [List.foldl_cons, hstep, hitCount_cons] at a2 ⊢
          try simp at a2
          omega
        · simp only [List.foldl_cons, hstep] at a3 ⊢
          simp [a3]; omega
        · simp only [List.foldl_cons, hstep, hitCount_cons] at a4 ⊢
          try simp at a4
          omega
        · simp only [List.foldl_cons, hstep, errCount_cons] at a5 ⊢
          simp [a5]
        · simp only [List.foldl_cons, hstep] at b1 ⊢
          try simp at b1
          simp [b1]
        · simp only [hitCount_cons]
          try simp at b2
          simp [b2]
          omega
        · intro m hm
          rcases List.mem_cons.mp hm with rfl | hm
          · exact ⟨s.embeds ++ [h], rfl, by simp; omega⟩
          · exact b3 m hm
      · have hstep : dailyStep s (.hit h) =
            { s with
              processed := s.processed + 1
              hits := s.hits + 1
              embeds := s.embeds ++ [h] } := by
          simp [dailyStep, BATCH_SIZE]
          intro hc
          exact absurd (by simpa using hc) hflush
        obtain ⟨a1, a2, a3, a4, a5, new, b1, b2, b3⟩ :=
          ih { s with
            processed := s.processed + 1
            hits := s.hits + 1
            embeds := s.embeds ++ [h] } (by simp; omega)
        refine ⟨?_, ?_, ?_, ?_, ?_, new, ?_, ?_, b3⟩
        · simpa [hstep] using a1
        · simp only [List.foldl_cons, hstep, hitCount_cons] at a2 ⊢
          try simp at a2
          omega
        · simp only [List.foldl_cons, hstep] at a3 ⊢
          simp [a3]; omega
        · simp only [List.foldl_cons, hstep, hitCount_cons] at a4 ⊢
          try simp at a4
          omega
        · simp only [List.foldl_cons, hstep, errCount_cons] at a5 ⊢
          simp [a5]
        · simp only [List.foldl_cons, hstep] at b1 ⊢
          simpa using b1
        · simp only [hitCount_cons]
          try simp at b2
          simp [b2]
          omega

lemma batchMsgs_append (xs ys : List Msg) :
    batchMsgs (xs ++ ys) = batchMsgs xs ++ batchMsgs ys := by
  simp [batchMsgs]

lemma batchMsgs_of_all_batch (msgs : List Msg)
    (h : ∀ m ∈ msgs, ∃ b, m = Msg.batch b ∧ b.length = 10) :
    (batchMsgs msgs).length = msgs.length ∧ ∀ b ∈ batchMsgs msgs, b.length = 10 := by
  induction msgs with
  | nil => simp [batchMsgs]
  | cons m ms ih =>
    obtain ⟨b, hm, hb⟩ := h m (by simp)
    subst hm
    obtain ⟨ih1, ih2⟩ := ih (fun m hm => h m (by simp [hm]))
    refine ⟨?_, ?_⟩
    · simp [batchMsgs, List.filterMap_cons] at ih1 ⊢
      exact ih1
    · intro b' hb'
      simp only [batchMsgs, List.filterMap_cons] at hb'
      rcases List.mem_cons.mp hb' with rfl | hb'
      · exact hb
      · exact ih2 b' hb'

lemma dailyFinish_counters (deliver : ℕ → Bool) (s : ScanState) :
    (dailyFinish deliver s).1.processed = s.processed ∧
    (dailyFinish deliver s).1.hits = s.hits ∧
    (dailyFinish deliver s).1.failures = s.failures := by
  unfold dailyFinish
  split_ifs <;> simp

/-- C2: over any completion-order result list, the daily scan flushes exactly
`hitCount / 10` full batches of exactly `BATCH_SIZE = 10` hits during the
loop; the final flush adds one partial batch of `hitCount % 10` hits iff
`hitCount % 10 > 0`; and no submitted batch ever exceeds 10 hits. -/
theorem C2_batch_cap (deliver : ℕ → Bool) (results : List TaskOut) :
    ((batchMsgs (results.foldl dailyStep initState).msgs).length = hitCount results / 10 ∧
      (∀ b ∈ batchMsgs (results.foldl dailyStep initState).msgs, b.length = 10)) ∧
    (hitCount results % 10 > 0 →
      batchMsgs (run_daily_model deliver results).1.msgs =
        batchMsgs (results.foldl dailyStep initState).msgs ++
          [(results.foldl dailyStep initState).embeds] ∧
      (results.foldl dailyStep initState).embeds.length = hitCount results % 10) ∧
    (hitCount results % 10 = 0 →
      batchMsgs (run_daily_model deliver results).1.msgs =
        batchMsgs (results.foldl dailyStep initState).msgs) ∧
    (∀ b ∈ batchMsgs (run_daily_model deliver results).1.msgs, b.length ≤ 10) := by
  obtain ⟨a1, a2, a3, a4, a5, new, b1, b2, b3⟩ :=
    daily_fold_inv results initState (by simp [initState])
  obtain ⟨c1, c2⟩ := batchMsgs_of_all_batch new b3
  have hmsgs : batchMsgs (results.foldl dailyStep initState).msgs = batchMsgs new := by
    rw [b1]
    simp [initState, batchMsgs_append, batchMsgs]
  have hlen : (batchMsgs (results.foldl dailyStep initState).msgs).length =
      hitCount results / 10 := by
    rw [hmsgs, c1, b2]
    simp [initState]
  have hcap : ∀ b ∈ batchMsgs (results.foldl dailyStep initState).msgs, b.length = 10 :=
    fun b hb => c2 b (hmsgs ▸ hb)
  have hemb : (results.foldl dailyStep initState).embeds.length = hitCount results % 10 := by
    rw [a2]; simp [initState]
  refine ⟨⟨hlen, hcap⟩, ?_, ?_, ?_⟩
  · intro hmod
    have hne : (results.foldl dailyStep initState).embeds.isEmpty = false := by
      rw [List.isEmpty_eq_false_iff_exists_mem]
      rcases hx : (results.foldl dailyStep initState).embeds with _ | ⟨x, xs⟩
      · rw [hx] at hemb; simp at hemb; omega
      · exact ⟨x, by simp⟩
    refine ⟨?_, hemb⟩
    simp only [run_daily_model, dailyFinish, hne, Bool.false_eq_true, if_false,
      batchMsgs_append]
    simp [batchMsgs]
  · intro hmod
    have hempty : (results.foldl dailyStep initState).embeds.isEmpty = true := by
      rw [List.isEmpty_iff_length_eq_zero]
      omega
    simp [run_daily_model, dailyFinish, hempty]
  · intro b hb
    simp only [run_daily_model, dailyFinish] at hb
    by_cases hempty : (results.foldl dailyStep initState).embeds.isEmpty
    · simp only [hempty, if_true] at hb
      exact le_of_eq (hcap b hb)
    · simp only [Bool.not_eq_true] at hempty
      simp only [hempty, Bool.false_eq_true, if_false, batchMsgs_append] at hb
      rcases List.mem_append.mp hb with hb | hb
      · exact le_of_eq (hcap b hb)
      · have : b = (results.foldl dailyStep initState).embeds := by
          simpa [batchMsgs] using hb
        rw [this, hemb]
        omega

/-- C2 witness: the cap theorem applied to a three-hit scan (partial final
batch) and a zero-hit scan (no final batch). -/
theorem C2_batch_cap_witness :
    (hitCount [TaskOut.hit ⟨"A", [1]⟩, TaskOut.hit ⟨"B", [1]⟩, TaskOut.hit ⟨"C", [1]⟩] % 10 > 0 ∧
      batchMsgs (run_daily_model (fun _ => true)
          [TaskOut.hit ⟨"A", [1]⟩, TaskOut.hit ⟨"B", [1]⟩, TaskOut.hit ⟨"C", [1]⟩]).1.msgs =
        batchMsgs ([TaskOut.hit ⟨"A", [1]⟩, TaskOut.hit ⟨"B", [1]⟩,
            TaskOut.hit ⟨"C", [1]⟩].foldl dailyStep initState).msgs ++
          [([TaskOut.hit ⟨"A", [1]⟩, TaskOut.hit ⟨"B", [1]⟩,
            TaskOut.hit ⟨"C", [1]⟩].foldl dailyStep initState).embeds]) ∧
    (hitCount [TaskOut.skip] % 10 = 0 ∧
      batchMsgs (run_daily_model (fun _ => true) [TaskOut.skip]).1.msgs =
        batchMsgs ([TaskOut.skip].foldl dailyStep initState).msgs) :=
  ⟨⟨by decide, ((C2_batch_cap (fun _ => true) _).2.1 (by decide)).1⟩,
   ⟨by decide, (C2_batch_cap (fun _ => true) [TaskOut.skip]).2.2.1 (by decide)⟩⟩

lemma symbolTask_ne_err (c : Collab) (s : String) :
    symbolTask c s ≠ TaskOut.taskErr := by
  unfold symbolTask
  cases c.fetch s with
  | none => simp
  | some bars =>
    by_cases hb : bars.isEmpty
    · simp [hb]
    · simp only [hb, Bool.false_eq_true, if_false]
      rcases calculate (bars.map Bar.close) with ⟨sig, e12, e26⟩
      cases sig <;> simp only
      · split
        · split <;> simp
        · simp
      · split
        · split <;> simp
        · simp
      · simp
      · simp
      · simp

/-- With a renderer that constantly succeeds, `generate_chart` on valid input
returns the renderer's bytes. -/
lemma generate_chart_const_render (bytes : List ℕ) (symbol : String)
    (prices ema12 ema26 : List ℚ) (dates : List String)
    (h : prices.isEmpty = false)
    (hl : prices.length = ema12.length ∧ prices.length = ema26.length ∧
      prices.length = dates.length) :
    generate_chart (fun _ => .ok bytes) symbol prices ema12 ema26 dates = .ok bytes := by
  obtain ⟨h1, h2, h3⟩ := hl
  have hlen : prices.length ≠ 0 := by
    cases prices with
    | nil => simp at h
    | cons a l => simp
  simp only [generate_chart]
  split_ifs with hif1 hif2 hif3
  · exact absurd hif1 (by simp [h])
  · exfalso
    rw [List.length_drop] at hif3
    omega
  · rfl
  · exact absurd ⟨h1, h2, h3⟩ hif2

/-- A fetch of exactly the two bars with closes `[1, 2]`, a succeeding join
and a constantly-succeeding renderer produce a `Buy` hit. -/
lemma symbolTask_two_bar_buy (c : Collab) (s : String) (d1 d2 : String)
    (bytes : List ℕ)
    (hf : c.fetch s = some [⟨1, d1⟩, ⟨2, d2⟩])
    (hj : c.joinOk s = true)
    (hr : c.render s = fun _ => .ok bytes) :
    symbolTask c s = TaskOut.hit ⟨s, bytes⟩ := by
  have hsig : (calculate [1, 2]).1 = Signal.Buy := by
    norm_num [calculate, emaSeries, Ema.next, Ema.new]
  have hfast := calculate_fast_length [1, 2]
  have hslow := calculate_slow_length [1, 2]
  rcases hcalc : calculate [1, 2] with ⟨sig, e12, e26⟩
  rw [hcalc] at hsig hfast hslow
  simp only at hsig hfast hslow
  subst hsig
  have hchart : generate_chart (c.render s) s [1, 2] e12 e26 [d1, d2] = .ok bytes := by
    rw [hr]
    exact generate_chart_const_render bytes s [1, 2] e12 e26 [d1, d2] (by simp)
      ⟨by simp [hfast], by simp [hslow], by simp⟩
  simp only [symbolTask, hf]
  simp only [List.isEmpty_cons, Bool.false_eq_true, if_false, List.map]
  simp only [show ([⟨1, d1⟩, ⟨2, d2⟩] : List Bar).map Bar.close = [1, 2] by simp [Bar.close],
    show ([⟨1, d1⟩, ⟨2, d2⟩] : List Bar).map Bar.date = [d1, d2] by simp [Bar.date]] at *
  rw [hcalc]
  simp only [hj, if_true, hchart]

lemma collabBuy_task (s : String) :
    symbolTask collabBuy s = TaskOut.hit ⟨s, [7]⟩ :=
  symbolTask_two_bar_buy collabBuy s "2024-01-01" "2024-01-02" [7] rfl rfl rfl

lemma collabNoSignal_task (s : String) :
    symbolTask collabNoSignal s = TaskOut.skip := by
  simp [symbolTask, collabNoSignal, calculate]

lemma collab5_task_hit (s : String) (hs : ¬ s = "S3") :
    symbolTask collab5 s = TaskOut.hit ⟨s, [7]⟩ :=
  symbolTask_two_bar_buy collab5 s "2024-01-01" "2024-01-02" [7]
    (by simp [collab5, hs]) rfl rfl

lemma collab5_task_skip : symbolTask collab5 "S3" = TaskOut.skip := by
  simp [symbolTask, collab5]

/-- With every delivery acknowledged, the interactive trigger's consuming loop
never aborts and computes exactly the daily loop's fold. -/
lemma triggerLoop_all_ok (results : List TaskOut) (s : ScanState) :
    triggerLoop (fun _ => true) s results = (results.foldl dailyStep s, true) := by
  induction results generalizing s with
  | nil => simp [triggerLoop]
  | cons r rest ih =>
    cases r with
    | hit h =>
      by_cases hflush : s.embeds.length + 1 = BATCH_SIZE
      · simp [triggerLoop, dailyStep, hflush, ih]
      · simp [triggerLoop, dailyStep, hflush, ih]
    | skip => simp [triggerLoop, dailyStep, ih]
    | taskErr => simp [triggerLoop, dailyStep, ih]

/-- A loop over hit-free results never flushes, hence never aborts, under any
delivery oracle. -/
lemma triggerLoop_no_hit (deliver : ℕ → Bool) (results : List TaskOut) (s : ScanState)
    (hno : hitCount results = 0) :
    triggerLoop deliver s results = (results.foldl dailyStep s, true) := by
  induction results generalizing s with
  | nil => simp [triggerLoop]
  | cons r rest ih =>
    cases r with
    | hit h => simp [hitCount_cons] at hno
    | skip =>
      rw [hitCount_cons] at hno
      simp [triggerLoop, dailyStep, ih _ (by omega)]
    | taskErr =>
      rw [hitCount_cons] at hno
      simp [triggerLoop, dailyStep, ih _ (by omega)]

/-- C1 (amended): a per-symbol fetch, evaluate, or render failure is caught at
that symbol's task boundary and converted to a skipped (`Ok(None)`) result —
not counted: the `failures` counter counts only tasks returning `Err`, and no
failure path of the task body produces `Err`, so every scan reports
`failures = 0` while still processing every symbol. -/
theorem C1_failures_not_counted (c : Collab) (symbols : List String)
    (deliver : ℕ → Bool) :
    (∀ s, symbolTask c s ≠ TaskOut.taskErr) ∧
    (run_daily_model deliver (symbols.map (symbolTask c))).1.processed =
      symbols.length ∧
    (run_daily_model deliver (symbols.map (symbolTask c))).1.failures = 0 := by
  obtain ⟨a1, a2, a3, a4, a5, new, b1, b2, b3⟩ :=
    daily_fold_inv (symbols.map (symbolTask c)) initState (by simp [initState])
  have hfin :=
    dailyFinish_counters deliver ((symbols.map (symbolTask c)).foldl dailyStep initState)
  have herr : errCount (symbols.map (symbolTask c)) = 0 := by
    rw [errCount, List.countP_eq_zero]
    intro r hr
    obtain ⟨s, hs, rfl⟩ := List.mem_map.mp hr
    have hne := symbolTask_ne_err c s
    cases hx : symbolTask c s <;> simp_all
  refine ⟨symbolTask_ne_err c, ?_, ?_⟩
  · simp only [run_daily_model]
    rw [hfin.1, a3]
    simp [initState]
  · simp only [run_daily_model]
    rw [hfin.2.2, a5, herr]
    simp [initState]

/-- C1 witness: the amended statement at the 5-symbol failing-fetch scan. -/
theorem C1_failures_not_counted_witness :
    (symbolTask collab5 "S3" ≠ TaskOut.taskErr) ∧
    (run_daily_model (fun _ => true) (fiveSymbols.map (symbolTask collab5))).1.processed
      = 5 ∧
    (run_daily_model (fun _ => true) (fiveSymbols.map (symbolTask collab5))).1.failures
      = 0 :=
  ⟨(C1_failures_not_counted collab5 fiveSymbols (fun _ => true)).1 "S3",
   by
    have h := (C1_failures_not_counted collab5 fiveSymbols (fun _ => true)).2.1
    simpa [fiveSymbols] using h,
   (C1_failures_not_counted collab5 fiveSymbols (fun _ => true)).2.2⟩

/-- C1 counterexample: in the 5-symbol scan whose `"S3"` fetch fails, all 5
symbols complete (4 hits, 1 skip) but the summary reports `failures = 0`, not
the claimed `failures = 1`. -/
theorem C1_counterexample :
    collab5.fetch "S3" = none ∧
    (run_daily_model (fun _ => true) (fiveSymbols.map (symbolTask collab5))).1.failures
      = 0 ∧
    (run_daily_model (fun _ => true) (fiveSymbols.map (symbolTask collab5))).1.processed
      = 5 ∧
    (run_daily_model (fun _ => true) (fiveSymbols.map (symbolTask collab5))).1.hits
      = 4 := by
  have e1 := collab5_task_hit "S1" (by decide)
  have e2 := collab5_task_hit "S2" (by decide)
  have e4 := collab5_task_hit "S4" (by decide)
  have e5 := collab5_task_hit "S5" (by decide)
  have hmap : fiveSymbols.map (symbolTask collab5) =
      [TaskOut.hit ⟨"S1", [7]⟩, TaskOut.hit ⟨"S2", [7]⟩, TaskOut.skip,
        TaskOut.hit ⟨"S4", [7]⟩, TaskOut.hit ⟨"S5", [7]⟩] := by
    simp [fiveSymbols, e1, e2, collab5_task_skip, e4, e5]
  rw [hmap]
  exact ⟨by simp [collab5], by decide, by decide, by decide⟩

/-- C4 (amended): for a zero-hit scan over a non-empty result list, the
interactive trigger submits exactly one "no signals" text message and zero
batches; the daily scheduled scan submits nothing at all — its "no signals"
notification is commented out in the source and only logged. -/
theorem C4_zero_hit_outcome (deliver : ℕ → Bool) (results : List TaskOut)
    (hne : results ≠ []) (hzero : hitCount results = 0) :
    (trigger_model deliver results).1.msgs = [Msg.text "No Buy/Sell signals found."] ∧
    batchMsgs (trigger_model deliver results).1.msgs = [] ∧
    (run_daily_model deliver results).1.msgs = [] := by
  obtain ⟨a1, a2, a3, a4, a5, new, b1, b2, b3⟩ :=
    daily_fold_inv results initState (by simp [initState])
  have hemb : (results.foldl dailyStep initState).embeds = [] := by
    have hln : (results.foldl dailyStep initState).embeds.length = 0 := by
      rw [a2]; simp [initState, hzero]
    simpa using hln
  have hnew : new = [] := by
    have hln : new.length = 0 := by
      rw [b2]; simp [initState, hzero]
    simpa using hln
  have hmsgs : (results.foldl dailyStep initState).msgs = [] := by
    rw [b1, hnew]; simp [initState]
  have hloop := triggerLoop_no_hit deliver results initState hzero
  refine ⟨?_, ?_, ?_⟩
  · simp [trigger_model, hloop, triggerFinish, hemb, hmsgs]
  · simp [trigger_model, hloop, triggerFinish, hemb, hmsgs, batchMsgs]
  · simp [run_daily_model, dailyFinish, hemb, hmsgs]

/-- C4 witness: the zero-hit outcome at the single-skip scan. -/
theorem C4_zero_hit_outcome_witness :
    [TaskOut.skip] ≠ ([] : List TaskOut) ∧ hitCount [TaskOut.skip] = 0 ∧
    (trigger_model (fun _ => true) [TaskOut.skip]).1.msgs =
      [Msg.text "No Buy/Sell signals found."] ∧
    (run_daily_model (fun _ => true) [TaskOut.skip]).1.msgs = [] :=
  ⟨by decide, by decide,
    (C4_zero_hit_outcome (fun _ => true) [TaskOut.skip] (by decide) (by decide)).1,
    (C4_zero_hit_outcome (fun _ => true) [TaskOut.skip] (by decide) (by decide)).2.2⟩

/-- C4 counterexample: a zero-hit daily scan over a non-empty symbol set
submits zero messages — not the claimed single "no signals" notification. -/
theorem C4_counterexample :
    hitCount (["S1"].map (symbolTask collabNoSignal)) = 0 ∧
    (["S1"].map (symbolTask collabNoSignal)) ≠ [] ∧
    (run_daily_model (fun _ => true) (["S1"].map (symbolTask collabNoSignal))).1.msgs
      = [] := by
  have hmap : ["S1"].map (symbolTask collabNoSignal) = [TaskOut.skip] := by
    simp [collabNoSignal_task]
  rw [hmap]
  exact ⟨by decide, by decide, by decide⟩

/-- C5 (amended): in the scheduled daily scan a mid-scan flush failure is only
logged: every result is still consumed, the submitted message sequence is
identical to an all-successful run (so a failed batch's contents are never
requeued or retried), and the summary counters are unaffected. (In the
interactive trigger a mid-scan flush failure instead aborts the scan; see the
counterexample.) -/
theorem C5_daily_flush_failure_continues (deliver : ℕ → Bool) (results : List TaskOut) :
    (run_daily_model deliver results).1.processed = results.length ∧
    (run_daily_model deliver results).1.msgs =
      (run_daily_model (fun _ => true) results).1.msgs ∧
    (run_daily_model deliver results).1.hits = hitCount results ∧
    (run_daily_model deliver results).1.failures = errCount results := by
  obtain ⟨a1, a2, a3, a4, a5, new, b1, b2, b3⟩ :=
    daily_fold_inv results initState (by simp [initState])
  have hc := dailyFinish_counters deliver (results.foldl dailyStep initState)
  have hmsg : (dailyFinish deliver (results.foldl dailyStep initState)).1.msgs =
      (dailyFinish (fun _ => true) (results.foldl dailyStep initState)).1.msgs := by
    unfold dailyFinish
    split_ifs <;> simp
  refine ⟨?_, ?_, ?_, ?_⟩
  · simp only [run_daily_model]
    rw [hc.1, a3]; simp [initState]
  · simp only [run_daily_model]
    exact hmsg
  · simp only [run_daily_model]
    rw [hc.2.1, a4]; simp [initState]
  · simp only [run_daily_model]
    rw [hc.2.2, a5]; simp [initState]

/-- C5 counterexample: an 11-hit trigger scan whose deliveries all fail aborts
at the first flush — only 10 of the 11 results are consumed and the function
returns the error — refuting "a flush failure never aborts the scan" for the
interactive call site; the daily call site consumes all 11. -/
theorem C5_counterexample :
    (elevenSymbols.map (symbolTask collabBuy)).length = 11 ∧
    (trigger_model (fun _ => false) (elevenSymbols.map (symbolTask collabBuy))).2
      = false ∧
    (trigger_model (fun _ => false) (elevenSymbols.map (symbolTask collabBuy))).1.processed
      = 10 ∧
    (run_daily_model (fun _ => false) (elevenSymbols.map (symbolTask collabBuy))).1.processed
      = 11 := by
  have hmap : elevenSymbols.map (symbolTask collabBuy) =
      elevenSymbols.map (fun s => TaskOut.hit ⟨s, [7]⟩) := by
    simp [collabBuy_task]
  rw [hmap]
  refine ⟨by simp [elevenSymbols], ?_, ?_, ?_⟩ <;>
    · simp only [elevenSymbols, List.map]
      decide

/-- C6 (amended): under an always-acknowledging delivery surface both call
sites run the same engine on the same completion-order results: equal
`processed`/`hits`/`failures` counters and equal batch-flush sequences; they
differ in the zero-hit outcome — the trigger submits one "no signals" text,
the daily scan submits nothing. -/
theorem C6_call_sites_agree (results : List TaskOut) :
    (trigger_model (fun _ => true) results).1.processed =
      (run_daily_model (fun _ => true) results).1.processed ∧
    (trigger_model (fun _ => true) results).1.hits =
      (run_daily_model (fun _ => true) results).1.hits ∧
    (trigger_model (fun _ => true) results).1.failures =
      (run_daily_model (fun _ => true) results).1.failures ∧
    batchMsgs (trigger_model (fun _ => true) results).1.msgs =
      batchMsgs (run_daily_model (fun _ => true) results).1.msgs ∧
    (hitCount results = 0 →
      (trigger_model (fun _ => true) results).1.msgs =
        [Msg.text "No Buy/Sell signals found."] ∧
      (run_daily_model (fun _ => true) results).1.msgs = []) := by
  obtain ⟨a1, a2, a3, a4, a5, new, b1, b2, b3⟩ :=
    daily_fold_inv results initState (by simp [initState])
  have hloop := triggerLoop_all_ok results initState
  have htm : trigger_model (fun _ => true) results =
      triggerFinish (fun _ => true) (results.foldl dailyStep initState) := by
    simp [trigger_model, hloop]
  have hdm : run_daily_model (fun _ => true) results =
      dailyFinish (fun _ => true) (results.foldl dailyStep initState) := rfl
  rw [htm, hdm]
  by_cases hemp : (results.foldl dailyStep initState).embeds.isEmpty
  · refine ⟨by simp [triggerFinish, dailyFinish, hemp],
      by simp [triggerFinish, dailyFinish, hemp],
      by simp [triggerFinish, dailyFinish, hemp],
      by simp [triggerFinish, dailyFinish, hemp, batchMsgs_append, batchMsgs], ?_⟩
    intro hzero
    have hnew : new = [] := by
      have hln : new.length = 0 := by
        rw [b2]; simp [initState, hzero]
      simpa using hln
    have hmsgs : (results.foldl dailyStep initState).msgs = [] := by
      rw [b1, hnew]; simp [initState]
    constructor
    · simp [triggerFinish, hemp, hmsgs]
    · simp [dailyFinish, hemp, hmsgs]
  · refine ⟨by simp [triggerFinish, dailyFinish, hemp],
      by simp [triggerFinish, dailyFinish, hemp],
      by simp [triggerFinish, dailyFinish, hemp],
      by simp [triggerFinish, dailyFinish, hemp], ?_⟩
    intro hzero
    exfalso
    have hln : (results.foldl dailyStep initState).embeds.length = 0 := by
      rw [a2]; simp [initState, hzero]
    have : (results.foldl dailyStep initState).embeds = [] := by simpa using hln
    simp [this] at hemp

/-- C6 witness: the shared-engine facts applied to a one-skip scan. -/
theorem C6_call_sites_agree_witness :
    hitCount (["S1"].map (symbolTask collabNoSignal)) = 0 ∧
    (trigger_model (fun _ => true) (["S1"].map (symbolTask collabNoSignal))).1.msgs =
      [Msg.text "No Buy/Sell signals found."] := by
  have hmap : ["S1"].map (symbolTask collabNoSignal) = [TaskOut.skip] := by
    simp [collabNoSignal_task]
  rw [hmap]
  exact ⟨by decide, ((C6_call_sites_agree [TaskOut.skip]).2.2.2.2 (by decide)).1⟩

/-- C6 counterexample: on a zero-hit scan with identical collaborator
responses the two call sites submit different messages (the trigger one text,
the daily none), refuting strict observational equality of the two call
sites. -/
theorem C6_counterexample :
    (trigger_model (fun _ => true) (["S1"].map (symbolTask collabNoSignal))).1.msgs ≠
      (run_daily_model (fun _ => true) (["S1"].map (symbolTask collabNoSignal))).1.msgs := by
  have hmap : ["S1"].map (symbolTask collabNoSignal) = [TaskOut.skip] := by
    simp [collabNoSignal_task]
  rw [hmap]
  decide

/-- C8: in every reachable scheduler state at most `CONCURRENCY = 8`
symbol-tasks are in flight, and whenever the shared backlog is non-empty and
capacity is free the next backlog task can be started immediately — the
backlog is shared, not statically partitioned among 8 workers. -/
theorem C8_concurrency_cap (task : String → TaskOut) (symbols : List String)
    (s : PoolState) (h : PoolReachable CONCURRENCY task symbols s) :
    s.running.length ≤ CONCURRENCY ∧
    (s.pending ≠ [] → s.running.length < CONCURRENCY →
      ∃ s', PoolStep CONCURRENCY task s s' ∧
        s'.running.length = s.running.length + 1 ∧
        s'.pending.length + 1 = s.pending.length) := by
  have hinv : s.running.length ≤ CONCURRENCY := by
    induction h with
    | refl => simp
    | tail hsteps hstep ih =>
      cases hstep with
      | spawn x pending running done hcap => simpa using hcap
      | complete x pending running done hx =>
        exact le_trans (List.Sublist.length_le (List.erase_sublist x running)) ih
  refine ⟨hinv, ?_⟩
  intro hpend hcap
  rcases s with ⟨pending, running, done⟩
  cases pending with
  | nil => exact absurd rfl hpend
  | cons x p =>
    exact ⟨⟨p, x :: running, done⟩, PoolStep.spawn x p running done hcap,
      by simp, by simp⟩

/-- C8 witness: the cap and eager admission at the initial one-symbol state. -/
theorem C8_concurrency_cap_witness :
    (⟨["A"], [], []⟩ : PoolState).running.length ≤ CONCURRENCY ∧
    (∃ s', PoolStep CONCURRENCY (fun _ => TaskOut.skip) ⟨["A"], [], []⟩ s' ∧
      s'.running.length = (⟨["A"], [], []⟩ : PoolState).running.length + 1 ∧
      s'.pending.length + 1 = (⟨["A"], [], []⟩ : PoolState).pending.length) :=
  ⟨(C8_concurrency_cap (fun _ => TaskOut.skip) ["A"] ⟨["A"], [], []⟩
      Relation.ReflTransGen.refl).1,
   (C8_concurrency_cap (fun _ => TaskOut.skip) ["A"] ⟨["A"], [], []⟩
      Relation.ReflTransGen.refl).2 (by decide) (by decide)⟩

/-- C9 (amended): a pending-delete session expires after the 300-second TTL —
a confirm at or after `t₀ + 300` is rejected as expired — but it is not
single-use: a successful confirm leaves the pending entry untouched, so every
confirm by the owner before expiry succeeds again with the stored symbols. -/
theorem C9_session_ttl_not_single_use (st0 : PendingStore) (watch : List String)
    (uid : ℕ) (id : String) (syms : List String) (t0 : ℕ)
    (howner : ownerOf id = toString uid)
    (hsyms : syms.map normalize ≠ []) :
    (∀ t, t0 + 300 ≤ t →
      (confirmDelete (set_pending_delete st0 id syms t0) watch uid id t).1 =
        ConfirmOutcome.expired) ∧
    (∀ t (watch' : List String), t < t0 + 300 →
      (confirmDelete (set_pending_delete st0 id syms t0) watch' uid id t).1 =
        ConfirmOutcome.deleted ((syms.map normalize).dedup) ∧
      (confirmDelete (set_pending_delete st0 id syms t0) watch' uid id t).2.1 =
        set_pending_delete st0 id syms t0) := by
  have hmem : (syms.map normalize).isEmpty = false := by
    cases hc : syms.map normalize with
    | nil => exact absurd hc hsyms
    | cons a l => rfl
  have hentry : (set_pending_delete st0 id syms t0).entries id =
      some ((syms.map normalize).dedup, t0 + 300) := by
    simp [set_pending_delete, hmem]
  have hdedup : (syms.map normalize).dedup ≠ [] := by
    intro hd
    exact hsyms (by simpa using hd)
  constructor
  · intro t ht
    have hnt : ¬ t < t0 + 300 := by omega
    simp [confirmDelete, howner, get_pending_delete, hentry, hnt]
  · intro t watch' ht
    constructor
    · simp [confirmDelete, howner, get_pending_delete, hentry, ht, hdedup]
    · simp [confirmDelete, howner, get_pending_delete, hentry, ht, hdedup]

/-- C9 witness: a session set at `t = 0` confirms at `t = 299` and is expired
at `t = 300`. -/
theorem C9_session_witness :
    (ownerOf "1-0" = toString 1) ∧
    (["AAPL"].map normalize ≠ []) ∧
    (confirmDelete (set_pending_delete ⟨fun _ => none⟩ "1-0" ["AAPL"] 0) [] 1 "1-0"
      299).1 = ConfirmOutcome.deleted ((["AAPL"].map normalize).dedup) ∧
    (confirmDelete (set_pending_delete ⟨fun _ => none⟩ "1-0" ["AAPL"] 0) [] 1 "1-0"
      300).1 = ConfirmOutcome.expired :=
  ⟨by decide, by decide,
   ((C9_session_ttl_not_single_use ⟨fun _ => none⟩ [] 1 "1-0" ["AAPL"] 0 (by decide)
      (by decide)).2 299 [] (by decide)).1,
   (C9_session_ttl_not_single_use ⟨fun _ => none⟩ [] 1 "1-0" ["AAPL"] 0 (by decide)
      (by decide)).1 300 (by decide)⟩

/-- C9 counterexample: the same session id is successfully confirmed twice —
the first confirm at `t = 10` succeeds and leaves the pending store
unchanged, and the second confirm at `t = 20` succeeds again — refuting
single-use. -/
theorem C9_counterexample :
    (confirmDelete (set_pending_delete ⟨fun _ => none⟩ "1-0" ["AAPL"] 0) ["AAPL"] 1
      "1-0" 10).1 = ConfirmOutcome.deleted ["AAPL"] ∧
    (confirmDelete
      (confirmDelete (set_pending_delete ⟨fun _ => none⟩ "1-0" ["AAPL"] 0) ["AAPL"] 1
        "1-0" 10).2.1
      (confirmDelete (set_pending_delete ⟨fun _ => none⟩ "1-0" ["AAPL"] 0) ["AAPL"] 1
        "1-0" 10).2.2
      1 "1-0" 20).1 = ConfirmOutcome.deleted ["AAPL"] := by
  constructor <;> decide

/-- C10: over a non-empty watchlist of `n` symbols, the `/delete` selection
menu presents exactly `min(n, 25)` options — the first 25 listed symbols —
and for `n > 25` a symbol at index ≥ 25 of a duplicate-free listing is not
among the options. -/
theorem C10_delete_menu (symbols : List String) (h : symbols ≠ []) :
    ∃ opts, deleteMenu symbols = some opts ∧
      opts = symbols.take 25 ∧
      opts.length = min symbols.length 25 ∧
      (symbols.Nodup → ∀ i, 25 ≤ i → ∀ hi : i < symbols.length,
        symbols.get ⟨i, hi⟩ ∉ opts) := by
  have hne : symbols.isEmpty = false := by
    cases symbols with
    | nil => exact absurd rfl h
    | cons a l => rfl
  refine ⟨symbols.take (min symbols.length 25), by simp [deleteMenu, hne], ?_, ?_, ?_⟩
  · rw [List.take_eq_take]
    omega
  · rw [List.length_take]
    omega
  · intro hnd i h25 hi hmemtake
    have heq : symbols.take (min symbols.length 25) = symbols.take 25 := by
      rw [List.take_eq_take]; omega
    rw [heq] at hmemtake
    obtain ⟨m, hm, hgm⟩ := List.mem_take_iff_getElem.mp hmemtake
    have hmi : m = i := (hnd.getElem_inj_iff).mp hgm
    omega

/-- C10 witness: a 26-symbol watchlist presents exactly the first 25 options
and the 26th symbol is not selectable. -/
theorem C10_delete_menu_witness :
    ((List.range 26).map toString ≠ []) ∧
    ∃ opts, deleteMenu ((List.range 26).map toString) = some opts ∧
      opts = ((List.range 26).map toString).take 25 ∧
      opts.length = min ((List.range 26).map toString).length 25 ∧
      (((List.range 26).map toString).Nodup → ∀ i, 25 ≤ i →
        ∀ hi : i < ((List.range 26).map toString).length,
        ((List.range 26).map toString).get ⟨i, hi⟩ ∉ opts) :=
  ⟨by decide, C10_delete_menu ((List.range 26).map toString) (by decide)⟩

end DiscordRs
